import Mathlib

/-!
Verification of the Spectre color/gradient library (src/utils.js,
src/index.js, src/unnamed/part_000, src/unnamed/part_001) against its
natural-language specification.

Modelling conventions:
* JavaScript numbers are modelled by exact arithmetic: by `ℚ` for the pure
  helpers of src/utils.js (whose reachable branches are rational), and by `ℝ`
  for the color-space conversion math, which uses `Math.cbrt`, fractional
  powers and `Math.atan2`.
* `NaN`, `±Infinity` and non-number JavaScript values are modelled explicitly
  where a claim depends on them (`JsInput`, `JSVal`); elsewhere a `ℝ`/`ℚ`
  argument models a finite number.
* JavaScript's `%` operator (remainder with the sign of the dividend,
  `x - n * trunc(x / n)`) is modelled by `jsMod`.
* Thrown exceptions are modelled with `Except` / explicit error components;
  a stateful method returns the post-state together with the error, so a
  mutation that happens before a throw is visible in the post-state.
* `chroma-js` is an external CDN dependency, not part of this repository;
  calls into it are modelled by explicit call descriptors (`ScaleCall`) or by
  a mixing function parameter (`colorEaseOut`), with its documented behavior
  instantiated only where a concrete evaluation is needed.
-/

namespace Spectre

/-! # Definitions -/

/-! ## JavaScript `%` and hue normalization (src/utils.js, src/index.js)

Generic over `ℚ` and `ℝ`: both the rational utils and the real-valued
conversion math use the same `deg % 360` normalization. -/

section JsModDefs

variable {α : Type _} [LinearOrderedField α] [FloorRing α]

/-- JavaScript truncation toward zero, `Math.trunc` / the `q` in the ECMA
definition of `%`. -/
def jsTrunc (q : α) : ℤ :=
  if 0 ≤ q then ⌊q⌋ else -⌊-q⌋

/-- JavaScript `x % n`: remainder with the sign of the dividend. -/
def jsMod (x n : α) : α :=
  x - n * (jsTrunc (x / n) : α)

/-- `normHueDeg` of src/utils.js (and the identical `Color.#normHueDeg` of
src/index.js) on a finite number: `x = deg % 360; x < 0 ? x + 360 : x`. -/
def normHueNum (deg : α) : α :=
  if jsMod deg 360 < 0 then jsMod deg 360 + 360 else jsMod deg 360

/-- `clamp` of src/utils.js and `Color.#clamp` of src/index.js:
`Math.min(Math.max(value, min), max)`. -/
def clamp [LinearOrder β] (value mn mx : β) : β :=
  min (max value mn) mx

end JsModDefs

/-! ## `isFiniteNumber` and `normHueDeg` on general JavaScript inputs
(src/utils.js lines 6-16) -/

/-- A JavaScript value as seen by `normHueDeg`: a finite number, `NaN`,
`±Infinity`, or a non-number value (string, object, function, ...).
For a function value the source computes `Number.isFinite(Number(value))`;
`Number` of a function is always `NaN`, so every non-number input is
rejected by `isFiniteNumber`. -/
inductive JsInput where
  | fin (q : ℚ)
  | nan
  | posInf
  | negInf
  | nonNumber
deriving DecidableEq

/-- `isFiniteNumber` of src/utils.js: true exactly on finite numbers. -/
def isFiniteNumber : JsInput → Bool
  | .fin _ => true
  | _ => false

/-- `normHueDeg` of src/utils.js: `if (!isFiniteNumber(deg)) return 0;`
then `deg % 360` normalized into `[0, 360)`. -/
def normHueDeg (v : JsInput) : ℚ :=
  if isFiniteNumber v then
    match v with
    | .fin q => normHueNum q
    | _ => 0
  else 0

/-! ## `lerp` and `lerpAngleDeg` (src/utils.js lines 25-34) -/

/-- `lerp` of src/utils.js: `a + (b - a) * t`. No clamping of `t`. -/
def lerp (a b t : ℚ) : ℚ := a + (b - a) * t

/-- The `delta` computed inside `lerpAngleDeg`:
`((((b0 - a0) % 360) + 540) % 360) - 180`. -/
def lerpDelta (a0 b0 : ℚ) : ℚ :=
  jsMod (jsMod (b0 - a0) 360 + 540) 360 - 180

/-- `lerpAngleDeg` of src/utils.js on finite inputs:
normalize both angles, compute the signed arc `delta`, return
`normHueDeg(a0 + delta * t)`. -/
def lerpAngleDeg (a b t : ℚ) : ℚ :=
  normHueDeg (.fin (normHueDeg (.fin a)
    + lerpDelta (normHueDeg (.fin a)) (normHueDeg (.fin b)) * t))

/-! ## Color-space conversion math
(src/unnamed/part_000; duplicated as the `Color.#...` statics of
src/index.js). Real-valued because the source uses `Math.cbrt`,
fractional powers, `Math.sqrt` and `Math.atan2`. -/

noncomputable section RealColorMath

/-- D65 white point `X` (`WHITE_D65.X`). -/
def WHITE_X : ℝ := 95.047

/-- D65 white point `Y` (`WHITE_D65.Y`). -/
def WHITE_Y : ℝ := 100.0

/-- D65 white point `Z` (`WHITE_D65.Z`). -/
def WHITE_Z : ℝ := 108.883

/-- Lab `EPSILON = 216 / 24389`. -/
def EPSILON : ℝ := 216 / 24389

/-- Lab `KAPPA = 24389 / 27`. -/
def KAPPA : ℝ := 24389 / 27

/-- `Math.cbrt`: the real cube root (odd extension of `x ^ (1/3)`). -/
def cbrt (x : ℝ) : ℝ :=
  if x < 0 then -((-x) ^ ((1:ℝ)/3)) else x ^ ((1:ℝ)/3)

/-- The transfer function `f` inside `xyzToLab`. -/
def labF (t : ℝ) : ℝ :=
  if t > EPSILON then cbrt t else (KAPPA * t + 16) / 116

/-- The inverse transfer function `finv` inside `labToXyz`. -/
def labFinv (t : ℝ) : ℝ :=
  if t ^ 3 > EPSILON then t ^ 3 else (116 * t - 16) / KAPPA

/-- A CIE Lab triple. -/
structure Lab where
  l : ℝ
  a : ℝ
  b : ℝ

/-- An XYZ triple (0..100 scale). -/
structure XYZ where
  X : ℝ
  Y : ℝ
  Z : ℝ

/-- An RGB triple (sRGB 0..255 scale, or linear 0..1 where noted). -/
structure RGB where
  r : ℝ
  g : ℝ
  b : ℝ

/-- An HSV triple. -/
structure HSV where
  h : ℝ
  s : ℝ
  v : ℝ

/-- An LCH triple. -/
structure LCH where
  l : ℝ
  c : ℝ
  h : ℝ

/-- `labToXyz` of src/unnamed/part_000 lines 9-28.  `fy = (l+16)/116`,
`fx = a/500 + fy`, `fz = fy - b/200`; `yr` branches on `l > KAPPA*EPSILON`. -/
def labToXyz (lab : Lab) : XYZ :=
  ⟨labFinv (lab.a / 500 + (lab.l + 16) / 116) * WHITE_X,
   (if lab.l > KAPPA * EPSILON then ((lab.l + 16) / 116) ^ 3
    else lab.l / KAPPA) * WHITE_Y,
   labFinv ((lab.l + 16) / 116 - lab.b / 200) * WHITE_Z⟩

/-- `xyzToLab` of src/unnamed/part_000 lines 30-48. -/
def xyzToLab (p : XYZ) : Lab :=
  ⟨116 * labF (p.Y / WHITE_Y) - 16,
   500 * (labF (p.X / WHITE_X) - labF (p.Y / WHITE_Y)),
   200 * (labF (p.Y / WHITE_Y) - labF (p.Z / WHITE_Z))⟩

/-- `linearToSrgb` of src/unnamed/part_000 lines 51-54. -/
def linearToSrgb (u : ℝ) : ℝ :=
  if u ≤ 0.0031308 then 12.92 * u else 1.055 * u ^ ((1:ℝ)/2.4) - 0.055

/-- `srgbToLinear` of src/unnamed/part_000 lines 56-59. -/
def srgbToLinear (u : ℝ) : ℝ :=
  if u ≤ 0.04045 then u / 12.92 else ((u + 0.055) / 1.055) ^ (2.4:ℝ)

/-- `xyzToLinearRgb` of src/unnamed/part_000 lines 62-72 (XYZ in 0..100). -/
def xyzToLinearRgb (p : XYZ) : RGB :=
  ⟨3.2406 * (p.X / 100) + (-1.5372) * (p.Y / 100) + (-0.4986) * (p.Z / 100),
   (-0.9689) * (p.X / 100) + 1.8758 * (p.Y / 100) + 0.0415 * (p.Z / 100),
   0.0557 * (p.X / 100) + (-0.2040) * (p.Y / 100) + 1.0570 * (p.Z / 100)⟩

/-- `linearRgbToXyz` of src/unnamed/part_000 lines 74-79. -/
def linearRgbToXyz (p : RGB) : XYZ :=
  ⟨(0.4124 * p.r + 0.3576 * p.g + 0.1805 * p.b) * 100,
   (0.2126 * p.r + 0.7152 * p.g + 0.0722 * p.b) * 100,
   (0.0193 * p.r + 0.1192 * p.g + 0.9505 * p.b) * 100⟩

/-- `labToRgb` of src/unnamed/part_000 lines 82-95: via XYZ and linear RGB,
gamma-encode, clamp to `[0,1]`, scale to 0..255. -/
def labToRgb (lab : Lab) : RGB :=
  ⟨clamp (linearToSrgb (xyzToLinearRgb (labToXyz lab)).r) 0 1 * 255,
   clamp (linearToSrgb (xyzToLinearRgb (labToXyz lab)).g) 0 1 * 255,
   clamp (linearToSrgb (xyzToLinearRgb (labToXyz lab)).b) 0 1 * 255⟩

/-- `rgbToLab` of src/unnamed/part_000 lines 97-110: clamp each channel to
`[0,1]` after /255, linearize, to XYZ, to Lab. -/
def rgbToLab (p : RGB) : Lab :=
  xyzToLab (linearRgbToXyz
    ⟨srgbToLinear (clamp (p.r / 255) 0 1),
     srgbToLinear (clamp (p.g / 255) 0 1),
     srgbToLinear (clamp (p.b / 255) 0 1)⟩)

/-- `Math.atan2 y x` (range `(-π, π]`, `atan2 0 0 = 0`), realized as the
complex argument of `x + y*I`. -/
def atan2 (y x : ℝ) : ℝ := Complex.arg (⟨x, y⟩ : ℂ)

/-- `labToLch` of src/unnamed/part_000 lines 113-117:
`c = sqrt(a² + b²)`, `h = normHueDeg(atan2(b, a) * 180/π)`.
(Over `ℝ` every value is finite, so the `isFiniteNumber` guard inside
`normHueDeg` always takes the finite branch, modelled by `normHueNum`.) -/
def labToLch (lab : Lab) : LCH :=
  ⟨lab.l,
   Real.sqrt (lab.a * lab.a + lab.b * lab.b),
   normHueNum (atan2 lab.b lab.a * (180 / Real.pi))⟩

/-- `lchToLab` of src/unnamed/part_000 lines 119-126. -/
def lchToLab (p : LCH) : Lab :=
  ⟨p.l,
   p.c * Real.cos (normHueNum p.h * (Real.pi / 180)),
   p.c * Real.sin (normHueNum p.h * (Real.pi / 180))⟩

/-- `hsvToRgb` of src/unnamed/part_000 lines 151-173 (also
`Color.#hsvToRgb`): sector decomposition on the normalized hue. -/
def hsvToRgb (p : HSV) : RGB :=
  let hh := normHueNum p.h
  let ss := clamp p.s 0 1
  let vv := clamp p.v 0 1
  let c := vv * ss
  let x := c * (1 - |jsMod (hh / 60) 2 - 1|)
  let m := vv - c
  let rgb01 : ℝ × ℝ × ℝ :=
    if hh < 60 then (c, x, 0)
    else if hh < 120 then (x, c, 0)
    else if hh < 180 then (0, c, x)
    else if hh < 240 then (0, x, c)
    else if hh < 300 then (x, 0, c)
    else (c, 0, x)
  ⟨(rgb01.1 + m) * 255, (rgb01.2.1 + m) * 255, (rgb01.2.2 + m) * 255⟩

/-! ## Validation / parsing (src/index.js lines 17-104) -/

/-- Error values thrown by the validators: `new Error("ValueError: ...")`
is modelled by `valueError`, `new TypeError(...)` by `typeError`. -/
inductive JsError where
  | valueError (msg : String)
  | typeError (msg : String)
deriving DecidableEq

/-- Message of the alpha range error (src/index.js line 80); it identifies
the alpha field. -/
def alphaRangeMsg : String :=
  "ValueError: Alpha number must be in [0,1]. Use Percent for percentages."

/-- Message of the alpha type error (src/index.js line 82). -/
def alphaTypeMsg : String := "Value of Color.alpha must be Percent or Number"

/-- Message of the `[0,1]`-unit range error (src/index.js line 90). -/
def unit01RangeMsg : String :=
  "ValueError: Expected number in [0,1]. Use Percent for percentages."

/-- Message of the `[0,1]`-unit / lightness type error
(src/index.js lines 92 and 103). -/
def unit01TypeMsg : String := "Value must be Percent or Number"

/-- Message of the lightness range error (src/index.js line 101). -/
def lightnessRangeMsg : String :=
  "ValueError: Lightness number must be in [0,1]. Use Percent for percentages."

/-- A JavaScript value arriving at a channel/alpha validator: a finite
number, a non-finite number (`NaN`, `±Infinity`), a `Percent` instance
(whose payload the `Percent` setter has already constrained to `[0,100]`,
but the validators re-clamp it anyway), or any other value. -/
inductive JSVal where
  | num (x : ℝ)
  | nonfinite
  | percent (v : ℝ)
  | other

/-- `Color.#parseAlpha` (src/index.js lines 74-83): `Percent` is clamped to
`[0,1]` after `/100`; a finite number must already be in `[0,1]` or a
ValueError is thrown; anything else is a TypeError. -/
noncomputable def parseAlpha : JSVal → Except JsError ℝ
  | .percent v => .ok (clamp (v / 100) 0 1)
  | .num x =>
      if 0 ≤ x ∧ x ≤ 1 then .ok x else .error (.valueError alphaRangeMsg)
  | .nonfinite => .error (.typeError alphaTypeMsg)
  | .other => .error (.typeError alphaTypeMsg)

/-- `Color.#parseUnit01` (src/index.js lines 85-93): same shape as
`#parseAlpha` with its own messages; used for HSV `s`/`v` and OK lightness. -/
noncomputable def parseUnit01 : JSVal → Except JsError ℝ
  | .percent v => .ok (clamp (v / 100) 0 1)
  | .num x =>
      if 0 ≤ x ∧ x ≤ 1 then .ok x else .error (.valueError unit01RangeMsg)
  | .nonfinite => .error (.typeError unit01TypeMsg)
  | .other => .error (.typeError unit01TypeMsg)

/-- `Color.#parseLightness100` (src/index.js lines 95-104): `Percent` uses
its `0..100` value clamped; a finite number must be a fraction in `[0,1]`
and is scaled by 100. -/
noncomputable def parseLightness100 : JSVal → Except JsError ℝ
  | .percent v => .ok (clamp v 0 100)
  | .num x =>
      if 0 ≤ x ∧ x ≤ 1 then .ok (x * 100)
      else .error (.valueError lightnessRangeMsg)
  | .nonfinite => .error (.typeError unit01TypeMsg)
  | .other => .error (.typeError unit01TypeMsg)

/-! ## The `Color` canonical state and its mutating entry points
(src/index.js lines 45-712) -/

/-- The canonical state of a `Color`: the private `#lab` triple plus
`#alpha`. -/
structure ColorState where
  l : ℝ
  a : ℝ
  b : ℝ
  alpha : ℝ

/-- A fresh `Color`: Lab `(0,0,0)`, alpha `1`. -/
def initColor : ColorState := ⟨0, 0, 0, 1⟩

/-- `Color.#setLab` (src/index.js lines 334-340): replaces the `#lab`
triple, leaving `#alpha` alone. -/
def setLab (st : ColorState) (lab : Lab) : ColorState :=
  { st with l := lab.l, a := lab.a, b := lab.b }

/-- The `alpha` setter (src/index.js lines 346-349):
`this.#alpha = Color.#parseAlpha(value)`; on a throw inside `#parseAlpha`
the assignment never happens, so the old alpha is kept. -/
noncomputable def alphaWrite (st : ColorState) (v : JSVal) :
    ColorState × Option JsError :=
  match parseAlpha v with
  | .ok a => ({ st with alpha := a }, none)
  | .error e => (st, some e)

/-- The `rgb` model's `call` (src/index.js lines 449-454): the bulk setter
`color.rgb(r, g, b, alpha)`.  Note the source order: `#setLab` runs BEFORE
`this.parent.alpha = alpha`; a missing alpha argument defaults to the
current alpha.  No validation is performed on `r`, `g`, `b`. -/
noncomputable def rgbCall (st : ColorState) (r g b : ℝ)
    (alphaArg : Option JSVal) : ColorState × Option JsError :=
  alphaWrite (setLab st (rgbToLab ⟨r, g, b⟩)) (alphaArg.getD (.num st.alpha))

/-- The `hsv` model's `call` (src/index.js lines 506-517): `s` and `v` are
validated by `#parseUnit01` while building the `hsv` literal (before any
state change); then `#setLab`, then the alpha write. -/
noncomputable def hsvCall (st : ColorState) (h : ℝ) (s v : JSVal)
    (alphaArg : Option JSVal) : ColorState × Option JsError :=
  match parseUnit01 s with
  | .error e => (st, some e)
  | .ok ss =>
    match parseUnit01 v with
    | .error e => (st, some e)
    | .ok vv =>
      alphaWrite (setLab st (rgbToLab (hsvToRgb ⟨h, ss, vv⟩)))
        (alphaArg.getD (.num st.alpha))

/-- A snapshot read through the `lch` view. -/
structure LCHView where
  l : ℝ
  c : ℝ
  h : ℝ
  alpha : ℝ

/-- The `lch` model's `get` (src/index.js lines 538-545): note that the
`l` channel is returned as `lch.l / 100`. -/
noncomputable def lchGet (st : ColorState) : LCHView :=
  ⟨(labToLch ⟨st.l, st.a, st.b⟩).l / 100,
   (labToLch ⟨st.l, st.a, st.b⟩).c,
   (labToLch ⟨st.l, st.a, st.b⟩).h,
   st.alpha⟩

/-- One mutation of a `Color` through any view, abstracted to its effect on
the canonical state: an alpha property write (every view routes `alpha`
through the same setter); a successful per-channel write (which calls
`#setLab` with some converted triple and never touches alpha — the triple
is universally quantified, so every conversion outcome is covered; a
per-channel write that throws changes nothing and is simply absent); or
one of the two embedded bulk calls. -/
inductive Mut where
  | alphaSet (v : JSVal)
  | labOnly (lab : Lab)
  | rgbBulk (r g b : ℝ) (alphaArg : Option JSVal)
  | hsvBulk (h : ℝ) (s v : JSVal) (alphaArg : Option JSVal)

/-- Apply one mutation; the post-state is reached even when an error is
thrown (partial writes stay visible, matching the JS semantics). -/
noncomputable def applyMut (st : ColorState) : Mut → ColorState × Option JsError
  | .alphaSet v => alphaWrite st v
  | .labOnly lab => (setLab st lab, none)
  | .rgbBulk r g b al => rgbCall st r g b al
  | .hsvBulk h s v al => hsvCall st h s v al

/-- Apply a sequence of mutations (errors are caught by the caller and the
sequence continues from the post-state). -/
noncomputable def applyMuts (st : ColorState) (ms : List Mut) : ColorState :=
  ms.foldl (fun s m => (applyMut s m).1) st

/-! ## `colorEaseOut` (src/index.js lines 4-15, src/unnamed/part_001
lines 4-15)

The signature is
`colorEaseOut(color1, color2, easedT, mode = "rgb", doChromaCorrection = false)`.
The body never reads `doChromaCorrection`.  The chroma-js scale that does
the actual mixing is external, so it enters the model as the `scaleMix`
parameter; the result `.set('oklch.c', …).css(mode)` / `.css(mode)` is
modelled by a `CssOut` value recording the serialized color and mode. -/

/-- The observable pieces of a chroma-js color that `colorEaseOut` touches:
its alpha and its `oklch.c` channel. -/
structure MixColor where
  alpha : ℝ
  oklchC : ℝ

/-- The `.css(mode)` call result: which color got serialized, in which
mode. -/
inductive CssOut where
  | css (c : MixColor) (mode : String)

/-- `colorEaseOut`: mix via the external scale, then — gated ONLY on
`newColor.alpha() < color1.alpha()`, never on `doChromaCorrection` —
boost the OKLCH chroma by `(1 + easedT)` capped at `0.55`. -/
noncomputable def colorEaseOut
    (scaleMix : MixColor → MixColor → String → ℝ → MixColor)
    (color1 color2 : MixColor) (easedT : ℝ) (mode : String)
    (doChromaCorrection : Bool) : CssOut :=
  let newColor := scaleMix color1 color2 mode easedT
  if newColor.alpha < color1.alpha then
    .css { newColor with oklchC := min (newColor.oklchC * (1 + easedT)) 0.55 }
      mode
  else
    .css newColor mode

/-- A concrete instance of the external chroma-js `"rgb"`-mode scale,
restricted to the channels `colorEaseOut` observes: chroma-js documents
alpha as linearly interpolated, and for two colors of equal `oklch.c` the
mix in any mode keeps that chroma — here realized as linear interpolation
of both observed channels.  Used only to evaluate `colorEaseOut` at
concrete inputs. -/
noncomputable def rgbScaleMix (c1 c2 : MixColor) (mode : String) (t : ℝ) :
    MixColor :=
  ⟨c1.alpha + (c2.alpha - c1.alpha) * t, c1.oklchC + (c2.oklchC - c1.oklchC) * t⟩

end RealColorMath

/-! ## `LinearGradient` (src/index.js lines 715-796) -/

/-- A gradient stop's color: either an object with a `.css()` method
(recording what that call returns) or a plain (string) value used as-is. -/
inductive SColor where
  | cssObj (cssStr : String)
  | plain (str : String)
deriving DecidableEq

/-- A gradient stop `{ color, pos }`. -/
structure GStop where
  color : SColor
  pos : ℚ
deriving DecidableEq

/-- Stable insertion of a stop into a position-sorted list: the new stop
goes before the first strictly-greater position, after equal ones. -/
def insertStop (x : GStop) : List GStop → List GStop
  | [] => [x]
  | y :: ys => if x.pos ≤ y.pos then x :: y :: ys else y :: insertStop x ys

/-- `Array.prototype.sort` with comparator `(a, b) => a.pos - b.pos` on
numeric positions: the (unique) stable ascending sort, realized as a stable
insertion sort. -/
def sortStops (l : List GStop) : List GStop := l.foldr insertStop []

/-- `LinearGradient` state: `stops`, `angle`, `mode`. -/
structure LinearGradient where
  stops : List GStop
  angle : ℚ
  mode : String

/-- The `LinearGradient` constructor (src/index.js lines 716-723): stores
`stops`, `angle`, `mode`, then sorts `stops` by position. -/
def mkLinearGradient (stops : List GStop) (angle : ℚ) (mode : String) :
    LinearGradient :=
  ⟨sortStops stops, angle, mode⟩

/-- `addStop` (src/index.js lines 725-729): push `{color, pos}`, re-sort. -/
def addStop (g : LinearGradient) (color : SColor) (pos : ℚ) : LinearGradient :=
  { g with stops := sortStops (g.stops ++ [⟨color, pos⟩]) }

/-- A sequence of `addStop` calls. -/
def applyAddStops (g : LinearGradient) (adds : List (SColor × ℚ)) :
    LinearGradient :=
  adds.foldl (fun gr p => addStop gr p.1 p.2) g

/-- The color string `getColorAt` extracts from a stop:
`s.color.css()` when the color has a `css` function, else the raw value. -/
def stopColorString : SColor → String
  | .cssObj c => c
  | .plain c => c

/-- The call `getColorAt` makes into the external chroma-js library:
`chroma.scale(colors).domain(positions).mode(mode)` evaluated at `arg`. -/
structure ScaleCall where
  colors : List String
  domain : List ℚ
  mode : String
  arg : ℚ
deriving DecidableEq

/-- `getColorAt` (src/index.js lines 731-743): builds the chroma scale over
the stops' colors and positions and evaluates it at `pos`.  The mode passed
to the scale is the literal `'lch'` — NOT `this.mode`. -/
def getColorAt (g : LinearGradient) (pos : ℚ) : ScaleCall :=
  ⟨g.stops.map (fun s => stopColorString s.color),
   g.stops.map (fun s => s.pos),
   "lch",
   pos⟩

/-- A sample two-stop gradient constructed with interpolation mode
`"rgb"`. -/
def exGradient : LinearGradient :=
  mkLinearGradient [⟨.plain "red", 0⟩, ⟨.plain "blue", 1⟩] 180 "rgb"

/-! # Theorems -/

/-! ## Arithmetic of `jsMod` and `normHueNum` -/

section JsModLemmas

variable {α : Type _} [LinearOrderedField α] [FloorRing α]

theorem jsTrunc_nonneg {q : α} (h : 0 ≤ q) : jsTrunc q = ⌊q⌋ := by
  simp [jsTrunc, h]

theorem jsTrunc_neg {q : α} (h : q < 0) : jsTrunc q = -⌊-q⌋ := by
  simp [jsTrunc, not_le.2 h]

theorem jsMod_eq_self_of_nonneg {x n : α} (h0 : 0 ≤ x) (hn : 0 < n)
    (hlt : x < n) : jsMod x n = x := by
  have hq0 : 0 ≤ x / n := div_nonneg h0 hn.le
  have hq1 : x / n < 1 := (div_lt_one hn).2 hlt
  have : ⌊x / n⌋ = 0 := Int.floor_eq_zero_iff.2 ⟨hq0, hq1⟩
  simp [jsMod, jsTrunc_nonneg hq0, this]

theorem jsMod_eq_self_of_neg {x n : α} (h0 : x < 0) (hn : 0 < n)
    (hlt : -n < x) : jsMod x n = x := by
  have hq : x / n < 0 := div_neg_of_neg_of_pos h0 hn
  have hq0 : 0 ≤ -x / n := by
    apply div_nonneg _ hn.le
    linarith
  have hq1 : -x / n < 1 := (div_lt_one hn).2 (by linarith)
  have : ⌊-(x / n)⌋ = 0 := by
    rw [← neg_div]
    exact Int.floor_eq_zero_iff.2 ⟨hq0, hq1⟩
  simp [jsMod, jsTrunc_neg hq, this]

theorem jsMod_nonneg_bounds {x n : α} (h0 : 0 ≤ x) (hn : 0 < n) :
    0 ≤ jsMod x n ∧ jsMod x n < n := by
  have hq0 : 0 ≤ x / n := div_nonneg h0 hn.le
  rw [jsMod, jsTrunc_nonneg hq0]
  constructor
  · have h1 : (⌊x / n⌋ : α) ≤ x / n := Int.floor_le _
    have h2 : n * (⌊x / n⌋ : α) ≤ n * (x / n) := by
      exact mul_le_mul_of_nonneg_left h1 hn.le
    have h3 : n * (x / n) = x := by field_simp
    linarith
  · have h1 : x / n < (⌊x / n⌋ : α) + 1 := Int.lt_floor_add_one _
    have h2 : n * (x / n) < n * ((⌊x / n⌋ : α) + 1) := by
      exact mul_lt_mul_of_pos_left h1 hn
    have h3 : n * (x / n) = x := by field_simp
    nlinarith

theorem jsMod_neg_bounds {x n : α} (h0 : x < 0) (hn : 0 < n) :
    -n < jsMod x n ∧ jsMod x n ≤ 0 := by
  have hnn : (0:α) ≤ -x := by linarith
  have hq : x / n < 0 := div_neg_of_neg_of_pos h0 hn
  have hq0 : 0 ≤ -x / n := div_nonneg hnn hn.le
  have hb := jsMod_nonneg_bounds hnn hn
  rw [jsMod, jsTrunc_nonneg hq0] at hb
  rw [jsMod, jsTrunc_neg hq]
  have hrw : x - n * ((-⌊-(x / n)⌋ : ℤ) : α)
      = -(-x - n * ((⌊-x / n⌋ : ℤ) : α)) := by
    rw [← neg_div]
    push_cast
    ring
  rw [hrw]
  constructor <;> linarith [hb.1, hb.2]

theorem normHueNum_mem (deg : α) :
    0 ≤ normHueNum deg ∧ normHueNum deg < 360 := by
  unfold normHueNum
  rcases le_or_lt 0 deg with h0 | h0
  · have h := jsMod_nonneg_bounds h0 (by norm_num : (0:α) < 360)
    rw [if_neg (not_lt.2 h.1)]
    exact h
  · have h := jsMod_neg_bounds h0 (by norm_num : (0:α) < 360)
    rcases lt_or_le (jsMod deg 360) 0 with hneg | hz
    · rw [if_pos hneg]
      constructor <;> linarith [h.1]
    · rw [if_neg (not_lt.2 hz)]
      constructor <;> linarith [h.2]

theorem normHueNum_eq_self {x : α} (h0 : 0 ≤ x) (h1 : x < 360) :
    normHueNum x = x := by
  unfold normHueNum
  rw [jsMod_eq_self_of_nonneg h0 (by norm_num) h1, if_neg (not_lt.2 h0)]

theorem normHueNum_neg_eq {x : α} (h0 : -360 < x) (h1 : x < 0) :
    normHueNum x = x + 360 := by
  unfold normHueNum
  rw [jsMod_eq_self_of_neg h1 (by norm_num) h0, if_pos h1]

theorem normHueNum_add360 {x : α} (h0 : 0 ≤ x) (h1 : x < 360) :
    normHueNum (x + 360) = x := by
  have hq0 : 0 ≤ (x + 360) / 360 := by positivity
  have hfl : ⌊(x + 360) / 360⌋ = 1 := by
    apply Int.floor_eq_iff.2
    constructor
    · push_cast
      rw [le_div_iff₀ (by norm_num : (0:α) < 360)]
      linarith
    · push_cast
      rw [div_lt_iff₀ (by norm_num : (0:α) < 360)]
      linarith
  have hm : jsMod (x + 360) 360 = x := by
    rw [jsMod, jsTrunc_nonneg hq0, hfl]
    push_cast
    ring
  unfold normHueNum
  rw [hm, if_neg (not_lt.2 h0)]

end JsModLemmas

theorem normHueDeg_fin (q : ℚ) : normHueDeg (.fin q) = normHueNum q := rfl

/-- For normalized inputs, `delta` lies in `[-180, 180)` (note: `-180` is
attained, `+180` is not) and is congruent to `b0 - a0` modulo 360, so that
walking the arc `delta` from `a0` lands on `b0`. -/
theorem lerpDelta_spec {a0 b0 : ℚ} (ha0 : 0 ≤ a0) (ha1 : a0 < 360)
    (hb0 : 0 ≤ b0) (hb1 : b0 < 360) :
    (-180 ≤ lerpDelta a0 b0 ∧ lerpDelta a0 b0 < 180) ∧
    normHueNum (a0 + lerpDelta a0 b0) = b0 := by
  have hd1 : -(360:ℚ) < b0 - a0 := by linarith
  have hd2 : b0 - a0 < 360 := by linarith
  have hm1 : jsMod (b0 - a0) 360 = b0 - a0 := by
    rcases le_or_lt 0 (b0 - a0) with h | h
    · exact jsMod_eq_self_of_nonneg h (by norm_num) hd2
    · exact jsMod_eq_self_of_neg h (by norm_num) hd1
  have hy1 : (180:ℚ) < b0 - a0 + 540 := by linarith
  have hy2 : b0 - a0 + 540 < 900 := by linarith
  have hyq : (0:ℚ) ≤ (b0 - a0 + 540) / 360 := by
    apply div_nonneg (by linarith) (by norm_num)
  have hzb := jsMod_nonneg_bounds
    (show (0:ℚ) ≤ b0 - a0 + 540 by linarith)
    (show (0:ℚ) < 360 by norm_num)
  have hld : lerpDelta a0 b0 = jsMod (b0 - a0 + 540) 360 - 180 := by
    unfold lerpDelta
    rw [hm1]
  have hzdef : jsMod (b0 - a0 + 540) 360
      = b0 - a0 + 540 - 360 * ((⌊(b0 - a0 + 540) / 360⌋ : ℤ) : ℚ) := by
    rw [jsMod, jsTrunc_nonneg hyq]
  refine ⟨⟨by rw [hld]; linarith [hzb.1], by rw [hld]; linarith [hzb.2]⟩, ?_⟩
  have hk0 : (0:ℤ) ≤ ⌊(b0 - a0 + 540) / 360⌋ := Int.floor_nonneg.2 hyq
  have hk2 : ⌊(b0 - a0 + 540) / 360⌋ ≤ 2 := by
    have h3 : (b0 - a0 + 540) / 360 < 3 := by
      rw [div_lt_iff₀ (by norm_num : (0:ℚ) < 360)]
      linarith
    have := Int.floor_lt.2
      (by push_cast; linarith : (b0 - a0 + 540) / 360 < ((3:ℤ):ℚ))
    omega
  set k := ⌊(b0 - a0 + 540) / 360⌋ with hk
  interval_cases k
  · -- k = 0 : the arc lands on b0 + 360
    have harg : a0 + lerpDelta a0 b0 = b0 + 360 := by
      rw [hld, hzdef]
      push_cast
      ring
    rw [harg]
    exact normHueNum_add360 hb0 hb1
  · -- k = 1 : the arc lands exactly on b0
    have harg : a0 + lerpDelta a0 b0 = b0 := by
      rw [hld, hzdef]
      push_cast
      ring
    rw [harg]
    exact normHueNum_eq_self hb0 hb1
  · -- k = 2 : the arc lands on b0 - 360, and then b0 ≥ 180 > 0
    have hge : ((2:ℤ):ℚ) ≤ (b0 - a0 + 540) / 360 := Int.le_floor.1 (by rw [← hk])
    have hy720 : (720:ℚ) ≤ b0 - a0 + 540 := by
      rw [le_div_iff₀ (by norm_num : (0:ℚ) < 360)] at hge
      push_cast at hge
      linarith
    have hbpos : (180:ℚ) ≤ b0 := by linarith
    have harg : a0 + lerpDelta a0 b0 = b0 - 360 := by
      rw [hld, hzdef]
      push_cast
      ring
    rw [harg, normHueNum_neg_eq (by linarith) (by linarith)]
    ring

theorem jsMod_360_360 : jsMod (360:ℚ) 360 = 0 := by
  have h : ((360:ℚ)/360) = 1 := by norm_num
  rw [jsMod, jsTrunc_nonneg (by norm_num : (0:ℚ) ≤ 360/360), h]
  norm_num

theorem normHueNum_360 : normHueNum (360:ℚ) = 0 := by
  unfold normHueNum
  rw [jsMod_360_360]
  norm_num

theorem normHueDeg_at_180 : normHueDeg (.fin 180) = 180 := by
  rw [normHueDeg_fin]
  exact normHueNum_eq_self (by norm_num) (by norm_num)

theorem normHueDeg_at_0 : normHueDeg (.fin 0) = 0 := by
  rw [normHueDeg_fin]
  exact normHueNum_eq_self (by norm_num) (by norm_num)

theorem lerpDelta_180_0 : lerpDelta 180 0 = -180 := by
  unfold lerpDelta
  have h1 : jsMod ((0:ℚ) - 180) 360 = 0 - 180 :=
    jsMod_eq_self_of_neg (by norm_num) (by norm_num) (by norm_num)
  rw [h1]
  have e : (0:ℚ) - 180 + 540 = 360 := by norm_num
  rw [e, jsMod_360_360]
  norm_num

theorem lerpAngle_350_10_half : lerpAngleDeg 350 10 (1/2) = 0 := by
  have ha : normHueDeg (.fin 350) = 350 := by
    rw [normHueDeg_fin]
    exact normHueNum_eq_self (by norm_num) (by norm_num)
  have hb : normHueDeg (.fin 10) = 10 := by
    rw [normHueDeg_fin]
    exact normHueNum_eq_self (by norm_num) (by norm_num)
  have hd : lerpDelta 350 10 = 20 := by
    unfold lerpDelta
    have h1 : jsMod ((10:ℚ) - 350) 360 = 10 - 350 :=
      jsMod_eq_self_of_neg (by norm_num) (by norm_num) (by norm_num)
    rw [h1]
    have e : (10:ℚ) - 350 + 540 = 200 := by norm_num
    rw [e, jsMod_eq_self_of_nonneg (by norm_num) (by norm_num) (by norm_num)]
    norm_num
  unfold lerpAngleDeg
  rw [ha, hb, hd]
  have e : (350:ℚ) + 20 * (1/2) = 360 := by norm_num
  rw [e, normHueDeg_fin]
  exact normHueNum_360

/-! ## Claim C2 — circular hue interpolation -/

/-- C2 counterexample.  The claim states that `delta` always lies in
`(-180, 180]`.  At hues `a = 180`, `b = 0` the computed `delta` is exactly
`-180`, which is NOT in `(-180, 180]`. -/
theorem C2_counterexample :
    lerpDelta (normHueDeg (.fin 180)) (normHueDeg (.fin 0)) = -180 ∧
    ¬(-180 < lerpDelta (normHueDeg (.fin 180)) (normHueDeg (.fin 0))) := by
  rw [normHueDeg_at_180, normHueDeg_at_0, lerpDelta_180_0]
  norm_num

/-- C2 (amended): for all finite hue angles `a`, `b` and `t ∈ [0,1]`,
`lerpAngleDeg` first normalizes both angles into `[0,360)`, computes
`delta = ((b0 - a0) mod 360 + 540) mod 360 - 180` which lies in
`[-180, 180)` (not `(-180, 180]`) and is the signed shortest arc (walking
it from `a0` lands on `b0` modulo 360), and returns
`normHueDeg(a0 + delta·t)`; interpolating hue 350 toward hue 10 at
`t = 1/2` yields exactly 0. -/
theorem C2_hue_interpolation (a b t : ℚ) (ht0 : 0 ≤ t) (ht1 : t ≤ 1) :
    (0 ≤ normHueDeg (.fin a) ∧ normHueDeg (.fin a) < 360) ∧
    (0 ≤ normHueDeg (.fin b) ∧ normHueDeg (.fin b) < 360) ∧
    (-180 ≤ lerpDelta (normHueDeg (.fin a)) (normHueDeg (.fin b)) ∧
      lerpDelta (normHueDeg (.fin a)) (normHueDeg (.fin b)) < 180) ∧
    lerpAngleDeg a b t
      = normHueDeg (.fin (normHueDeg (.fin a)
          + lerpDelta (normHueDeg (.fin a)) (normHueDeg (.fin b)) * t)) ∧
    normHueNum (normHueDeg (.fin a)
        + lerpDelta (normHueDeg (.fin a)) (normHueDeg (.fin b)))
      = normHueDeg (.fin b) ∧
    lerpAngleDeg 350 10 (1/2) = 0 := by
  have ha := normHueNum_mem a
  have hb := normHueNum_mem b
  rw [normHueDeg_fin, normHueDeg_fin]
  have hspec := lerpDelta_spec ha.1 ha.2 hb.1 hb.2
  exact ⟨ha, hb, hspec.1, rfl, hspec.2, lerpAngle_350_10_half⟩

/-- C2 witness: the amended theorem applied at `a = 350`, `b = 10`,
`t = 1/2`. -/
theorem C2_witness : lerpAngleDeg 350 10 (1/2) = 0 :=
  (C2_hue_interpolation 350 10 (1/2) (by norm_num) (by norm_num)).2.2.2.2.2

/-! ## Claim C6 — the linear interpolation primitive and `t` clamping -/

/-- C6 counterexample.  The claim states the interpolation primitive behaves
as if `t` were replaced by `min(max(t,0),1)`.  But `lerp 0 1 2 = 2`, while
the clamped version gives `1`. -/
theorem C6_counterexample :
    lerp 0 1 2 = 2 ∧ lerp 0 1 (min (max (2:ℚ) 0) 1) = 1 ∧
    lerp 0 1 2 ≠ lerp 0 1 (min (max (2:ℚ) 0) 1) := by
  refine ⟨by norm_num [lerp], by norm_num [lerp], by norm_num [lerp]⟩

/-- C6 (amended): the linear interpolation primitive `lerp` computes
`a + (b - a)·t` with `t` used exactly as given — no clamping is performed
by the primitive itself.  For `t ∈ [0,1]` the result lies between `a` and
`b`, but `t` outside `[0,1]` extrapolates. -/
theorem C6_lerp_unclamped (a b t : ℚ) :
    lerp a b t = a + (b - a) * t ∧
    (0 ≤ t → t ≤ 1 → min a b ≤ lerp a b t ∧ lerp a b t ≤ max a b) := by
  refine ⟨rfl, fun h0 h1 => ?_⟩
  rcases le_total a b with hab | hab
  · rw [min_eq_left hab, max_eq_right hab]
    unfold lerp
    constructor <;> nlinarith
  · rw [min_eq_right hab, max_eq_left hab]
    unfold lerp
    constructor <;> nlinarith

/-- C6 witness: the amended theorem applied at `a = 0`, `b = 10`,
`t = 1/2`. -/
theorem C6_witness :
    lerp 0 10 (1/2) = 0 + (10 - 0) * (1/2) ∧
    (min (0:ℚ) 10 ≤ lerp 0 10 (1/2) ∧ lerp 0 10 (1/2) ≤ max (0:ℚ) 10) :=
  ⟨(C6_lerp_unclamped 0 10 (1/2)).1,
   (C6_lerp_unclamped 0 10 (1/2)).2 (by norm_num) (by norm_num)⟩

/-! ## Claim C10 — totality of hue normalization -/

/-- C10: `normHueDeg` is total and never propagates `NaN`: every non-finite
or non-number input yields `0` (the function cannot throw — it is total by
construction), and every finite input yields a value in `[0, 360)`. -/
theorem C10_normHueDeg_total :
    (∀ v : JsInput, isFiniteNumber v = false → normHueDeg v = 0) ∧
    (∀ q : ℚ, 0 ≤ normHueDeg (.fin q) ∧ normHueDeg (.fin q) < 360) := by
  constructor
  · intro v hv
    cases v <;> simp_all [normHueDeg, isFiniteNumber]
  · intro q
    rw [normHueDeg_fin]
    exact normHueNum_mem q

/-- C10 witness: `NaN` normalizes to `0`, and the finite input `725`
normalizes into `[0, 360)`. -/
theorem C10_witness :
    normHueDeg .nan = 0 ∧
    (0 ≤ normHueDeg (.fin 725) ∧ normHueDeg (.fin 725) < 360) :=
  ⟨C10_normHueDeg_total.1 .nan rfl, C10_normHueDeg_total.2 725⟩

/-! ## Sorting of gradient stops -/

theorem mem_insertStop {t x : GStop} {l : List GStop} :
    t ∈ insertStop x l ↔ t = x ∨ t ∈ l := by
  induction l with
  | nil => simp [insertStop]
  | cons y ys ih =>
    rw [insertStop]
    by_cases hxy : x.pos ≤ y.pos
    · rw [if_pos hxy]
      simp [or_comm, or_assoc, or_left_comm]
    · rw [if_neg hxy]
      simp [ih]
      tauto

theorem insertStop_sorted (x : GStop) {l : List GStop}
    (h : l.Pairwise (fun s t => s.pos ≤ t.pos)) :
    (insertStop x l).Pairwise (fun s t => s.pos ≤ t.pos) := by
  induction l with
  | nil => simp [insertStop]
  | cons y ys ih =>
    rcases List.pairwise_cons.1 h with ⟨hy, hys⟩
    rw [insertStop]
    by_cases hxy : x.pos ≤ y.pos
    · rw [if_pos hxy]
      apply List.pairwise_cons.2
      refine ⟨?_, h⟩
      intro t ht
      rcases List.mem_cons.1 ht with rfl | htys
      · exact hxy
      · exact le_trans hxy (hy t htys)
    · rw [if_neg hxy]
      apply List.pairwise_cons.2
      refine ⟨?_, ih hys⟩
      intro t ht
      rcases mem_insertStop.1 ht with rfl | htys
      · exact (not_le.1 hxy).le
      · exact hy t htys

theorem insertStop_filter (x : GStop) (l : List GStop) (p : ℚ) :
    (insertStop x l).filter (fun s => decide (s.pos = p))
      = if x.pos = p then x :: l.filter (fun s => decide (s.pos = p))
        else l.filter (fun s => decide (s.pos = p)) := by
  induction l with
  | nil =>
    rw [insertStop]
    by_cases hxp : x.pos = p
    · simp [List.filter, hxp]
    · simp [List.filter, hxp]
  | cons y ys ih =>
    rw [insertStop]
    by_cases hxy : x.pos ≤ y.pos
    · rw [if_pos hxy]
      by_cases hxp : x.pos = p
      · simp [List.filter_cons, hxp]
      · simp [List.filter_cons, hxp]
    · rw [if_neg hxy]
      have hylt : y.pos < x.pos := not_le.1 hxy
      by_cases hxp : x.pos = p
      · have hyp : ¬(y.pos = p) := by
          intro hyeq
          rw [hxp] at hylt
          rw [hyeq] at hylt
          exact lt_irrefl _ hylt
        rw [if_pos hxp]
        simp [List.filter_cons, hyp, ih, hxp]
      · rw [if_neg hxp]
        by_cases hyp : y.pos = p
        · simp [List.filter_cons, hyp, ih, hxp]
        · simp [List.filter_cons, hyp, ih, hxp]

theorem sortStops_sorted (l : List GStop) :
    (sortStops l).Pairwise (fun s t => s.pos ≤ t.pos) := by
  induction l with
  | nil => simp [sortStops]
  | cons x xs ih => exact insertStop_sorted x ih

theorem sortStops_filter (l : List GStop) (p : ℚ) :
    (sortStops l).filter (fun s => decide (s.pos = p))
      = l.filter (fun s => decide (s.pos = p)) := by
  induction l with
  | nil => rfl
  | cons x xs ih =>
    show (insertStop x (sortStops xs)).filter _ = _
    rw [insertStop_filter, List.filter_cons]
    by_cases hxp : x.pos = p
    · rw [if_pos hxp, ih]
      simp [hxp]
    · rw [if_neg hxp, ih]
      simp [hxp]

theorem applyAddStops_sorted {g : LinearGradient}
    (hg : g.stops.Pairwise (fun s t => s.pos ≤ t.pos))
    (adds : List (SColor × ℚ)) :
    (applyAddStops g adds).stops.Pairwise (fun s t => s.pos ≤ t.pos) := by
  induction adds generalizing g with
  | nil => exact hg
  | cons a as ih =>
    show (applyAddStops (addStop g a.1 a.2) as).stops.Pairwise _
    exact ih (sortStops_sorted _)

theorem applyAddStops_filter (adds : List (SColor × ℚ)) (g : LinearGradient)
    (p : ℚ) :
    (applyAddStops g adds).stops.filter (fun s => decide (s.pos = p))
      = (g.stops ++ adds.map (fun c => (⟨c.1, c.2⟩ : GStop))).filter
          (fun s => decide (s.pos = p)) := by
  induction adds generalizing g with
  | nil => simp [applyAddStops]
  | cons a as ih =>
    show (applyAddStops (addStop g a.1 a.2) as).stops.filter _ = _
    rw [ih]
    show (sortStops (g.stops ++ [⟨a.1, a.2⟩]) ++ _).filter _ = _
    rw [List.filter_append, sortStops_filter, ← List.filter_append,
      List.map_cons, List.append_assoc]
    rfl

/-! ## Claim C9 — gradient stops stay sorted, ties keep insertion order -/

/-- C9: after construction and after every sequence of `addStop` calls with
numeric positions, the stop list is sorted ascending by position
(adjacent stops satisfy `pos_i ≤ pos_{i+1}`), and for every position `p`
the stops at `p` appear exactly in insertion order (initial list order,
then the `addStop` order). -/
theorem C9_stops_sorted_stable (init : List GStop) (angle : ℚ) (mode : String)
    (adds : List (SColor × ℚ)) (p : ℚ) :
    ((applyAddStops (mkLinearGradient init angle mode) adds).stops.Pairwise
      (fun s t => s.pos ≤ t.pos)) ∧
    (applyAddStops (mkLinearGradient init angle mode) adds).stops.filter
        (fun s => decide (s.pos = p))
      = (init ++ adds.map (fun c => (⟨c.1, c.2⟩ : GStop))).filter
          (fun s => decide (s.pos = p)) := by
  constructor
  · exact applyAddStops_sorted (sortStops_sorted init) adds
  · rw [applyAddStops_filter]
    show (sortStops init ++ _).filter _ = _
    rw [List.filter_append, sortStops_filter, ← List.filter_append]

/-! ## Claim C3 — `getColorAt` ignores the configured space -/

/-- C3 counterexample.  The claim states the blend happens in the
gradient's configured space.  `exGradient` is configured with mode
`"rgb"`, yet `getColorAt` passes the literal `'lch'` to the chroma
scale. -/
theorem C3_counterexample :
    (getColorAt exGradient (1/2)).mode = "lch" ∧ exGradient.mode = "rgb" ∧
    (getColorAt exGradient (1/2)).mode ≠ exGradient.mode :=
  ⟨rfl, rfl, by decide⟩

/-- C3 (amended): `getColorAt` builds a chroma scale whose colors are the
stops' colors (serialized via `.css()` when available), whose domain is the
stop positions, evaluated at the requested position — but always in the
fixed `'lch'` space: the gradient's configured `mode` field is ignored
(changing it does not change the call at all). -/
theorem C3_getColorAt_fixed_lch (g : LinearGradient) (pos : ℚ) :
    (getColorAt g pos).mode = "lch" ∧
    (getColorAt g pos).colors = g.stops.map (fun s => stopColorString s.color) ∧
    (getColorAt g pos).domain = g.stops.map (fun s => s.pos) ∧
    (getColorAt g pos).arg = pos ∧
    (∀ m : String, getColorAt { g with mode := m } pos = getColorAt g pos) :=
  ⟨rfl, rfl, rfl, rfl, fun _ => rfl⟩

/-! ## Claim C4 — the chroma-boost correction is not opt-in -/

/-- C4 (code bug evidence): `colorEaseOut` never reads
`doChromaCorrection` — its result is identical for any two flag values —
and at a fading input (`color1.alpha = 1`, `color2.alpha = 0`,
`easedT = 1/2`) with the flag explicitly `false` the correction IS applied:
the blended `oklch.c` of `0.2` is boosted by `1 + easedT = 3/2` to `0.3`. -/
theorem C4_flag_never_read :
    (∀ (scaleMix : MixColor → MixColor → String → ℝ → MixColor)
        (c1 c2 : MixColor) (t : ℝ) (m : String) (f1 f2 : Bool),
        colorEaseOut scaleMix c1 c2 t m f1 = colorEaseOut scaleMix c1 c2 t m f2) ∧
    colorEaseOut rgbScaleMix ⟨1, 2/10⟩ ⟨0, 2/10⟩ (1/2) "rgb" false
      = .css ⟨1/2, 3/10⟩ "rgb" := by
  constructor
  · intro scaleMix c1 c2 t m f1 f2
    rfl
  · show colorEaseOut rgbScaleMix ⟨1, 2/10⟩ ⟨0, 2/10⟩ (1/2) "rgb" false
      = .css ⟨1/2, 3/10⟩ "rgb"
    norm_num [colorEaseOut, rgbScaleMix, min_def]

/-! ## Alpha validation and the alpha invariant -/

theorem clamp_mem {α : Type _} [LinearOrder α] {x lo hi : α} (h : lo ≤ hi) :
    lo ≤ clamp x lo hi ∧ clamp x lo hi ≤ hi :=
  ⟨le_min (le_max_right _ _) h, min_le_right _ _⟩

theorem parseAlpha_ok_mem {v : JSVal} {a : ℝ} (h : parseAlpha v = .ok a) :
    0 ≤ a ∧ a ≤ 1 := by
  cases v with
  | num x =>
    rw [parseAlpha] at h
    by_cases hc : 0 ≤ x ∧ x ≤ 1
    · rw [if_pos hc] at h
      cases h
      exact hc
    · rw [if_neg hc] at h
      cases h
  | nonfinite => cases h
  | percent p =>
    rw [parseAlpha] at h
    cases h
    exact clamp_mem (by norm_num)
  | other => cases h

theorem alphaWrite_preserves {st : ColorState} {v : JSVal}
    (h : 0 ≤ st.alpha ∧ st.alpha ≤ 1) :
    0 ≤ (alphaWrite st v).1.alpha ∧ (alphaWrite st v).1.alpha ≤ 1 := by
  unfold alphaWrite
  cases hp : parseAlpha v with
  | ok a => simpa using parseAlpha_ok_mem hp
  | error e => simpa using h

theorem setLab_alpha (st : ColorState) (lab : Lab) :
    (setLab st lab).alpha = st.alpha := rfl

theorem applyMut_alpha_mem {st : ColorState}
    (h01 : 0 ≤ st.alpha ∧ st.alpha ≤ 1) (m : Mut) :
    0 ≤ (applyMut st m).1.alpha ∧ (applyMut st m).1.alpha ≤ 1 := by
  cases m with
  | alphaSet v => exact alphaWrite_preserves h01
  | labOnly lab => simpa [applyMut, setLab] using h01
  | rgbBulk r g b al =>
    show 0 ≤ (rgbCall st r g b al).1.alpha ∧ (rgbCall st r g b al).1.alpha ≤ 1
    unfold rgbCall
    exact alphaWrite_preserves (by simpa [setLab] using h01)
  | hsvBulk h s v al =>
    show 0 ≤ (hsvCall st h s v al).1.alpha ∧ (hsvCall st h s v al).1.alpha ≤ 1
    unfold hsvCall
    cases hs : parseUnit01 s with
    | error e => simpa using h01
    | ok ss =>
      cases hv : parseUnit01 v with
      | error e => simpa using h01
      | ok vv => exact alphaWrite_preserves (by simpa [setLab] using h01)

theorem applyMuts_alpha_mem (ms : List Mut) {st : ColorState}
    (h01 : 0 ≤ st.alpha ∧ st.alpha ≤ 1) :
    0 ≤ (applyMuts st ms).alpha ∧ (applyMuts st ms).alpha ≤ 1 := by
  induction ms generalizing st with
  | nil => exact h01
  | cons m ms ih =>
    show 0 ≤ (applyMuts (applyMut st m).1 ms).alpha ∧ _
    exact ih (applyMut_alpha_mem h01 m)

/-! ## Claim C7 — the alpha invariant -/

/-- C7: the stored alpha always lies in `[0,1]`.  A `Percent` alpha is
clamped into `[0,1]` on write; a finite number in `[0,1]` is stored as-is;
a finite number outside `[0,1]` is rejected with the range error naming
Alpha, and the write leaves the whole state (in particular the old alpha)
in place; a value that is neither a number nor a `Percent` is rejected with
a type error; and along every mutation sequence from a fresh `Color`, the
stored alpha stays in `[0,1]`. -/
theorem C7_alpha_invariant :
    (∀ v : ℝ, parseAlpha (.percent v) = .ok (clamp (v / 100) 0 1)
        ∧ 0 ≤ clamp (v / 100) 0 1 ∧ clamp (v / 100) 0 1 ≤ 1) ∧
    (∀ x : ℝ, 0 ≤ x → x ≤ 1 → parseAlpha (.num x) = .ok x) ∧
    (∀ x : ℝ, ¬(0 ≤ x ∧ x ≤ 1) →
        parseAlpha (.num x) = .error (.valueError alphaRangeMsg)
        ∧ ∀ st : ColorState, (applyMut st (.alphaSet (.num x))).1 = st) ∧
    parseAlpha .other = .error (.typeError alphaTypeMsg) ∧
    (∀ ms : List Mut,
        0 ≤ (applyMuts initColor ms).alpha ∧ (applyMuts initColor ms).alpha ≤ 1) := by
  refine ⟨?_, ?_, ?_, rfl, ?_⟩
  · intro v
    exact ⟨rfl, clamp_mem (by norm_num)⟩
  · intro x h0 h1
    rw [parseAlpha, if_pos ⟨h0, h1⟩]
  · intro x hx
    have he : parseAlpha (.num x) = .error (.valueError alphaRangeMsg) := by
      rw [parseAlpha, if_neg hx]
    refine ⟨he, fun st => ?_⟩
    show (alphaWrite st (.num x)).1 = st
    unfold alphaWrite
    rw [he]
  · intro ms
    exact applyMuts_alpha_mem ms (by norm_num [initColor])

/-- C7 witness: a `Percent` of 250 is clamped to `1`; the out-of-range
number `2` is rejected and leaves the state unchanged; the fresh color's
alpha is in `[0,1]`. -/
theorem C7_witness :
    (parseAlpha (.percent 250) = .ok (clamp ((250:ℝ) / 100) 0 1)) ∧
    parseAlpha (.num (1/2)) = .ok (1/2) ∧
    (parseAlpha (.num 2) = .error (.valueError alphaRangeMsg)
      ∧ (applyMut ⟨0, 0, 0, 1⟩ (.alphaSet (.num 2))).1 = ⟨0, 0, 0, 1⟩) ∧
    (0 ≤ (applyMuts initColor []).alpha ∧ (applyMuts initColor []).alpha ≤ 1) :=
  ⟨(C7_alpha_invariant.1 250).1,
   C7_alpha_invariant.2.1 (1/2) (by norm_num) (by norm_num),
   ⟨(C7_alpha_invariant.2.2.1 2 (by norm_num)).1,
    (C7_alpha_invariant.2.2.1 2 (by norm_num)).2 ⟨0, 0, 0, 1⟩⟩,
   C7_alpha_invariant.2.2.2.2 []⟩

/-! ## Evaluation of the conversion pipeline at rational-branch points -/

theorem clamp_eq_self {x lo hi : ℝ} (h1 : lo ≤ x) (h2 : x ≤ hi) :
    clamp x lo hi = x := by
  rw [clamp, max_eq_left h1, min_eq_left h2]

theorem srgbToLinear_small {u : ℝ} (h : u ≤ 0.04045) :
    srgbToLinear u = u / 12.92 := if_pos h

theorem linearToSrgb_small {u : ℝ} (h : u ≤ 0.0031308) :
    linearToSrgb u = 12.92 * u := if_pos h

theorem labF_small {t : ℝ} (h : t ≤ EPSILON) :
    labF t = (KAPPA * t + 16) / 116 := if_neg (not_lt.2 h)

theorem labFinv_small {t : ℝ} (h : t ^ 3 ≤ EPSILON) :
    labFinv t = (116 * t - 16) / KAPPA := if_neg (not_lt.2 h)

theorem rgbToLab_zero : rgbToLab ⟨0, 0, 0⟩ = ⟨0, 0, 0⟩ := by
  have hc : clamp ((0:ℝ) / 255) 0 1 = 0 := by
    rw [clamp_eq_self (by norm_num) (by norm_num)]
    norm_num
  have hs : srgbToLinear 0 = 0 := by
    rw [srgbToLinear_small (by norm_num)]
    norm_num
  have hf : labF 0 = 16 / 116 := by
    rw [labF_small (by norm_num [EPSILON])]
    norm_num [KAPPA]
  unfold rgbToLab
  rw [hc, hs]
  show xyzToLab (linearRgbToXyz ⟨0, 0, 0⟩) = _
  have hx : linearRgbToXyz ⟨0, 0, 0⟩ = ⟨0, 0, 0⟩ := by
    unfold linearRgbToXyz
    norm_num
  rw [hx]
  unfold xyzToLab
  norm_num [WHITE_X, WHITE_Y, WHITE_Z, hf]

/-! ## Claim C1 — bulk setters are not all-or-nothing -/

/-- C1 counterexample.  Starting from Lab `(50, 0, 0)` with alpha `1`, the
call `rgb(0, 0, 0, 2)` has an invalid alpha argument (`2 ∉ [0,1]`), so the
claim says the stored Lab must stay `(50, 0, 0)` after the exception.  In
the source, `#setLab` runs before the alpha validation: the exception is
thrown, yet the stored Lab has already become `(0, 0, 0)`. -/
theorem C1_counterexample :
    (rgbCall ⟨50, 0, 0, 1⟩ 0 0 0 (some (.num 2))).2
      = some (.valueError alphaRangeMsg) ∧
    (rgbCall ⟨50, 0, 0, 1⟩ 0 0 0 (some (.num 2))).1.l = 0 ∧
    (rgbCall ⟨50, 0, 0, 1⟩ 0 0 0 (some (.num 2))).1.l ≠ 50 := by
  have hpa : parseAlpha (.num 2) = .error (.valueError alphaRangeMsg) := by
    rw [parseAlpha, if_neg (by norm_num)]
  have hcall : rgbCall ⟨50, 0, 0, 1⟩ 0 0 0 (some (.num 2))
      = (setLab ⟨50, 0, 0, 1⟩ (rgbToLab ⟨0, 0, 0⟩),
         some (.valueError alphaRangeMsg)) := by
    unfold rgbCall
    show alphaWrite _ (.num 2) = _
    unfold alphaWrite
    rw [hpa]
  rw [hcall, rgbToLab_zero]
  norm_num [setLab]

/-- C1 (amended): a validation failure of the hsv bulk setter's `s` or `v`
channel happens before any state change and leaves the whole state
untouched; but when the alpha argument is invalid, the exception is raised
only AFTER the canonical Lab has been replaced — the converted Lab triple
is committed, and only the old alpha is retained.  (The rgb bulk setter
performs no channel validation at all.) -/
theorem C1_partial_write :
    (∀ (st : ColorState) (h : ℝ) (s v : JSVal) (al : Option JSVal)
        (e : JsError), parseUnit01 s = .error e →
        hsvCall st h s v al = (st, some e)) ∧
    (∀ (st : ColorState) (h : ℝ) (s v : JSVal) (al : Option JSVal)
        (e : JsError) (ss : ℝ), parseUnit01 s = .ok ss →
        parseUnit01 v = .error e →
        hsvCall st h s v al = (st, some e)) ∧
    (∀ (st : ColorState) (r g b : ℝ) (w : JSVal) (e : JsError),
        parseAlpha w = .error e →
        rgbCall st r g b (some w) = (setLab st (rgbToLab ⟨r, g, b⟩), some e)
        ∧ (setLab st (rgbToLab ⟨r, g, b⟩)).alpha = st.alpha) := by
  refine ⟨?_, ?_, ?_⟩
  · intro st h s v al e hs
    unfold hsvCall
    rw [hs]
  · intro st h s v al e ss hs hv
    unfold hsvCall
    rw [hs, hv]
  · intro st r g b w e hw
    refine ⟨?_, rfl⟩
    unfold rgbCall
    show alphaWrite _ w = _
    unfold alphaWrite
    rw [hw]

/-- C1 witness: the amended theorem applied at concrete inputs — an hsv
call with invalid saturation `2` leaves the state untouched, and an rgb
call with invalid alpha `2` commits the Lab write while raising. -/
theorem C1_witness :
    hsvCall ⟨50, 0, 0, 1⟩ 0 (.num 2) (.num 0) none
      = (⟨50, 0, 0, 1⟩, some (.valueError unit01RangeMsg)) ∧
    rgbCall ⟨50, 0, 0, 1⟩ 0 0 0 (some (.num 2))
      = (setLab ⟨50, 0, 0, 1⟩ (rgbToLab ⟨0, 0, 0⟩),
         some (.valueError alphaRangeMsg)) :=
  ⟨C1_partial_write.1 ⟨50, 0, 0, 1⟩ 0 (.num 2) (.num 0) none
      (.valueError unit01RangeMsg)
      (by rw [parseUnit01, if_neg (by norm_num)]),
   (C1_partial_write.2.2 ⟨50, 0, 0, 1⟩ 0 0 0 (.num 2)
      (.valueError alphaRangeMsg)
      (by rw [parseAlpha, if_neg (by norm_num)])).1⟩

/-! ## Claim C8 — the LCH read view -/

theorem labToLch_achromatic (l : ℝ) : labToLch ⟨l, 0, 0⟩ = ⟨l, 0, 0⟩ := by
  unfold labToLch
  have hz : (⟨0, 0⟩ : ℂ) = 0 := by
    apply Complex.ext <;> simp
  have ha : atan2 0 0 = 0 := by
    unfold atan2
    rw [hz]
    exact Complex.arg_zero
  rw [ha]
  norm_num [normHueNum_eq_self (le_refl (0:ℝ)) (by norm_num)]

/-- C8 counterexample.  The claim says the `l` channel read through the LCH
view equals the canonical Lab `L` on the 0–100 scale.  At canonical Lab
`(50, 0, 0)` the view returns `50 / 100 = 1/2`, not `50`. -/
theorem C8_counterexample :
    (lchGet ⟨50, 0, 0, 1⟩).l = 1/2 ∧ (lchGet ⟨50, 0, 0, 1⟩).l ≠ 50 := by
  have h : (lchGet ⟨50, 0, 0, 1⟩).l = 50 / 100 := by
    show (labToLch ⟨50, 0, 0⟩).l / 100 = 50 / 100
    rw [labToLch_achromatic]
  rw [h]
  norm_num

/-- C8 (amended): reading through the LCH view yields `l` equal to the
canonical Lab `L` DIVIDED BY 100 (a fraction, not the 0–100 scale),
`c = √(a² + b²) ≥ 0`, and `h ∈ [0, 360)`. -/
theorem C8_lch_view (st : ColorState) :
    (lchGet st).l = st.l / 100 ∧
    0 ≤ (lchGet st).c ∧
    (0 ≤ (lchGet st).h ∧ (lchGet st).h < 360) := by
  refine ⟨rfl, Real.sqrt_nonneg _, ?_⟩
  exact normHueNum_mem _

/-! ## The round trip RGB → Lab → RGB on the linear-gamma grey axis

On the segment `r = g = b = x`, `0 ≤ x ≤ 10`, every branch taken by the
conversion pipeline is the linear (rational) one, so the full round trip is
an exactly computable linear map.  The 4-decimal sRGB matrices of the
source are not exact inverses of each other, which makes the round trip
differ from the identity by a factor of up to `1.00005405` per channel. -/

theorem xyzToLab_small {p : XYZ} (hx : p.X / WHITE_X ≤ EPSILON)
    (hy : p.Y / WHITE_Y ≤ EPSILON) (hz : p.Z / WHITE_Z ≤ EPSILON) :
    xyzToLab p
      = ⟨116 * ((KAPPA * (p.Y / WHITE_Y) + 16) / 116) - 16,
         500 * ((KAPPA * (p.X / WHITE_X) + 16) / 116
           - (KAPPA * (p.Y / WHITE_Y) + 16) / 116),
         200 * ((KAPPA * (p.Y / WHITE_Y) + 16) / 116
           - (KAPPA * (p.Z / WHITE_Z) + 16) / 116)⟩ := by
  unfold xyzToLab
  rw [labF_small hx, labF_small hy, labF_small hz]

theorem labToRgb_linear {lab : Lab} {xr yr zr : ℝ}
    (hfx : lab.a / 500 + (lab.l + 16) / 116 = (KAPPA * xr + 16) / 116)
    (hfz : (lab.l + 16) / 116 - lab.b / 200 = (KAPPA * zr + 16) / 116)
    (hfy : lab.l = KAPPA * yr)
    (hfx3 : ((KAPPA * xr + 16) / 116) ^ 3 ≤ EPSILON)
    (hfz3 : ((KAPPA * zr + 16) / 116) ^ 3 ≤ EPSILON)
    (hyr8 : KAPPA * yr ≤ KAPPA * EPSILON)
    (hr0 : 0 ≤ 3.2406 * (xr * WHITE_X / 100) + (-1.5372) * (yr * WHITE_Y / 100)
        + (-0.4986) * (zr * WHITE_Z / 100))
    (hr1 : 3.2406 * (xr * WHITE_X / 100) + (-1.5372) * (yr * WHITE_Y / 100)
        + (-0.4986) * (zr * WHITE_Z / 100) ≤ 0.0031308)
    (hg0 : 0 ≤ (-0.9689) * (xr * WHITE_X / 100) + 1.8758 * (yr * WHITE_Y / 100)
        + 0.0415 * (zr * WHITE_Z / 100))
    (hg1 : (-0.9689) * (xr * WHITE_X / 100) + 1.8758 * (yr * WHITE_Y / 100)
        + 0.0415 * (zr * WHITE_Z / 100) ≤ 0.0031308)
    (hb0 : 0 ≤ 0.0557 * (xr * WHITE_X / 100) + (-0.2040) * (yr * WHITE_Y / 100)
        + 1.0570 * (zr * WHITE_Z / 100))
    (hb1 : 0.0557 * (xr * WHITE_X / 100) + (-0.2040) * (yr * WHITE_Y / 100)
        + 1.0570 * (zr * WHITE_Z / 100) ≤ 0.0031308) :
    labToRgb lab
      = ⟨12.92 * (3.2406 * (xr * WHITE_X / 100) + (-1.5372) * (yr * WHITE_Y / 100)
            + (-0.4986) * (zr * WHITE_Z / 100)) * 255,
         12.92 * ((-0.9689) * (xr * WHITE_X / 100) + 1.8758 * (yr * WHITE_Y / 100)
            + 0.0415 * (zr * WHITE_Z / 100)) * 255,
         12.92 * (0.0557 * (xr * WHITE_X / 100) + (-0.2040) * (yr * WHITE_Y / 100)
            + 1.0570 * (zr * WHITE_Z / 100)) * 255⟩ := by
  have h1 : labToXyz lab = ⟨xr * WHITE_X, yr * WHITE_Y, zr * WHITE_Z⟩ := by
    unfold labToXyz
    rw [hfx, hfz]
    rw [labFinv_small hfx3, labFinv_small hfz3]
    rw [hfy]
    rw [if_neg (not_lt.2 hyr8)]
    simp only [XYZ.mk.injEq]
    refine ⟨?_, ?_, ?_⟩ <;> (unfold KAPPA; ring)
  unfold labToRgb
  rw [h1]
  have h2 : xyzToLinearRgb ⟨xr * WHITE_X, yr * WHITE_Y, zr * WHITE_Z⟩
      = ⟨3.2406 * (xr * WHITE_X / 100) + (-1.5372) * (yr * WHITE_Y / 100)
          + (-0.4986) * (zr * WHITE_Z / 100),
         (-0.9689) * (xr * WHITE_X / 100) + 1.8758 * (yr * WHITE_Y / 100)
          + 0.0415 * (zr * WHITE_Z / 100),
         0.0557 * (xr * WHITE_X / 100) + (-0.2040) * (yr * WHITE_Y / 100)
          + 1.0570 * (zr * WHITE_Z / 100)⟩ := rfl
  rw [h2]
  dsimp only
  rw [linearToSrgb_small hr1, linearToSrgb_small hg1, linearToSrgb_small hb1]
  rw [clamp_eq_self (mul_nonneg (by norm_num) hr0) (by nlinarith [hr1]),
    clamp_eq_self (mul_nonneg (by norm_num) hg0) (by nlinarith [hg1]),
    clamp_eq_self (mul_nonneg (by norm_num) hb0) (by nlinarith [hb1])]

theorem rgbToLab_grey (x : ℝ) (hx0 : 0 ≤ x) (hx1 : x ≤ 10) :
    rgbToLab ⟨x, x, x⟩
      = ⟨KAPPA * (x / 3294.6),
         500 * (KAPPA / 116) * ((95.05 / 95.047 - 1) * (x / 3294.6)),
         200 * (KAPPA / 116) * ((1 - 108.90 / 108.883) * (x / 3294.6))⟩ := by
  have hc : clamp (x / 255) 0 1 = x / 255 :=
    clamp_eq_self (div_nonneg hx0 (by norm_num)) (by linarith)
  have hs : srgbToLinear (x / 255) = x / 255 / 12.92 :=
    srgbToLinear_small (by linarith)
  have e1 : rgbToLab ⟨x, x, x⟩
      = xyzToLab ⟨(0.4124 * (x / 255 / 12.92) + 0.3576 * (x / 255 / 12.92)
            + 0.1805 * (x / 255 / 12.92)) * 100,
          (0.2126 * (x / 255 / 12.92) + 0.7152 * (x / 255 / 12.92)
            + 0.0722 * (x / 255 / 12.92)) * 100,
          (0.0193 * (x / 255 / 12.92) + 0.1192 * (x / 255 / 12.92)
            + 0.9505 * (x / 255 / 12.92)) * 100⟩ := by
    show xyzToLab (linearRgbToXyz ⟨srgbToLinear (clamp (x / 255) 0 1),
        srgbToLinear (clamp (x / 255) 0 1),
        srgbToLinear (clamp (x / 255) 0 1)⟩) = _
    rw [hc, hs]
    rfl
  have hX : ((0.4124 * (x / 255 / 12.92) + 0.3576 * (x / 255 / 12.92)
        + 0.1805 * (x / 255 / 12.92)) * 100) / WHITE_X ≤ EPSILON := by
    unfold WHITE_X EPSILON
    ring_nf
    linarith
  have hY : ((0.2126 * (x / 255 / 12.92) + 0.7152 * (x / 255 / 12.92)
        + 0.0722 * (x / 255 / 12.92)) * 100) / WHITE_Y ≤ EPSILON := by
    unfold WHITE_Y EPSILON
    ring_nf
    linarith
  have hZ : ((0.0193 * (x / 255 / 12.92) + 0.1192 * (x / 255 / 12.92)
        + 0.9505 * (x / 255 / 12.92)) * 100) / WHITE_Z ≤ EPSILON := by
    unfold WHITE_Z EPSILON
    ring_nf
    linarith
  rw [e1, xyzToLab_small hX hY hZ]
  dsimp only
  simp only [Lab.mk.injEq]
  refine ⟨?_, ?_, ?_⟩ <;> simp only [WHITE_X, WHITE_Y, WHITE_Z] <;> ring

set_option maxHeartbeats 2000000 in
theorem roundTripGrey (x : ℝ) (hx0 : 0 ≤ x) (hx1 : x ≤ 10) :
    labToRgb (rgbToLab ⟨x, x, x⟩)
      = ⟨1.0000149 * x, 1.00005405 * x, 1.00001585 * x⟩ := by
  have hXR0 : 0 ≤ 95.05 / 95.047 * (x / 3294.6) :=
    mul_nonneg (by norm_num) (div_nonneg hx0 (by norm_num))
  have hZR0 : 0 ≤ 108.90 / 108.883 * (x / 3294.6) :=
    mul_nonneg (by norm_num) (div_nonneg hx0 (by norm_num))
  have hfx : (500 * (KAPPA / 116) * ((95.05 / 95.047 - 1) * (x / 3294.6))) / 500
        + (KAPPA * (x / 3294.6) + 16) / 116
      = (KAPPA * (95.05 / 95.047 * (x / 3294.6)) + 16) / 116 := by
    ring
  have hfz : (KAPPA * (x / 3294.6) + 16) / 116
        - (200 * (KAPPA / 116) * ((1 - 108.90 / 108.883) * (x / 3294.6))) / 200
      = (KAPPA * (108.90 / 108.883 * (x / 3294.6)) + 16) / 116 := by
    ring
  have hfy : KAPPA * (x / 3294.6) = KAPPA * (x / 3294.6) := rfl
  have hfx3 : ((KAPPA * (95.05 / 95.047 * (x / 3294.6)) + 16) / 116) ^ 3
      ≤ EPSILON := by
    have h0 : (0:ℝ) ≤ (KAPPA * (95.05 / 95.047 * (x / 3294.6)) + 16) / 116 := by
      unfold KAPPA
      ring_nf
      linarith
    have h1 : (KAPPA * (95.05 / 95.047 * (x / 3294.6)) + 16) / 116
        ≤ (0.162 : ℝ) := by
      unfold KAPPA
      ring_nf
      linarith
    calc ((KAPPA * (95.05 / 95.047 * (x / 3294.6)) + 16) / 116) ^ 3
        ≤ (0.162 : ℝ) ^ 3 := pow_le_pow_left h0 h1 3
      _ ≤ EPSILON := by unfold EPSILON; norm_num
  have hfz3 : ((KAPPA * (108.90 / 108.883 * (x / 3294.6)) + 16) / 116) ^ 3
      ≤ EPSILON := by
    have h0 : (0:ℝ) ≤ (KAPPA * (108.90 / 108.883 * (x / 3294.6)) + 16) / 116 := by
      unfold KAPPA
      ring_nf
      linarith
    have h1 : (KAPPA * (108.90 / 108.883 * (x / 3294.6)) + 16) / 116
        ≤ (0.162 : ℝ) := by
      unfold KAPPA
      ring_nf
      linarith
    calc ((KAPPA * (108.90 / 108.883 * (x / 3294.6)) + 16) / 116) ^ 3
        ≤ (0.162 : ℝ) ^ 3 := pow_le_pow_left h0 h1 3
      _ ≤ EPSILON := by unfold EPSILON; norm_num
  have hyr8 : KAPPA * (x / 3294.6) ≤ KAPPA * EPSILON := by
    unfold KAPPA EPSILON
    ring_nf
    linarith
  have hr0 : 0 ≤ 3.2406 * (95.05 / 95.047 * (x / 3294.6) * WHITE_X / 100)
      + (-1.5372) * (x / 3294.6 * WHITE_Y / 100)
      + (-0.4986) * (108.90 / 108.883 * (x / 3294.6) * WHITE_Z / 100) := by
    unfold WHITE_X WHITE_Y WHITE_Z
    ring_nf
    linarith
  have hr1 : 3.2406 * (95.05 / 95.047 * (x / 3294.6) * WHITE_X / 100)
      + (-1.5372) * (x / 3294.6 * WHITE_Y / 100)
      + (-0.4986) * (108.90 / 108.883 * (x / 3294.6) * WHITE_Z / 100)
      ≤ 0.0031308 := by
    unfold WHITE_X WHITE_Y WHITE_Z
    ring_nf
    linarith
  have hg0 : 0 ≤ (-0.9689) * (95.05 / 95.047 * (x / 3294.6) * WHITE_X / 100)
      + 1.8758 * (x / 3294.6 * WHITE_Y / 100)
      + 0.0415 * (108.90 / 108.883 * (x / 3294.6) * WHITE_Z / 100) := by
    unfold WHITE_X WHITE_Y WHITE_Z
    ring_nf
    linarith
  have hg1 : (-0.9689) * (95.05 / 95.047 * (x / 3294.6) * WHITE_X / 100)
      + 1.8758 * (x / 3294.6 * WHITE_Y / 100)
      + 0.0415 * (108.90 / 108.883 * (x / 3294.6) * WHITE_Z / 100)
      ≤ 0.0031308 := by
    unfold WHITE_X WHITE_Y WHITE_Z
    ring_nf
    linarith
  have hb0 : 0 ≤ 0.0557 * (95.05 / 95.047 * (x / 3294.6) * WHITE_X / 100)
      + (-0.2040) * (x / 3294.6 * WHITE_Y / 100)
      + 1.0570 * (108.90 / 108.883 * (x / 3294.6) * WHITE_Z / 100) := by
    unfold WHITE_X WHITE_Y WHITE_Z
    ring_nf
    linarith
  have hb1 : 0.0557 * (95.05 / 95.047 * (x / 3294.6) * WHITE_X / 100)
      + (-0.2040) * (x / 3294.6 * WHITE_Y / 100)
      + 1.0570 * (108.90 / 108.883 * (x / 3294.6) * WHITE_Z / 100)
      ≤ 0.0031308 := by
    unfold WHITE_X WHITE_Y WHITE_Z
    ring_nf
    linarith
  have e3 := @labToRgb_linear
    ⟨KAPPA * (x / 3294.6),
     500 * (KAPPA / 116) * ((95.05 / 95.047 - 1) * (x / 3294.6)),
     200 * (KAPPA / 116) * ((1 - 108.90 / 108.883) * (x / 3294.6))⟩
    (95.05 / 95.047 * (x / 3294.6)) (x / 3294.6)
    (108.90 / 108.883 * (x / 3294.6))
    hfx hfz hfy hfx3 hfz3 hyr8 hr0 hr1 hg0 hg1 hb0 hb1
  rw [rgbToLab_grey x hx0 hx1, e3]
  simp only [RGB.mk.injEq]
  refine ⟨?_, ?_, ?_⟩ <;> simp only [WHITE_X, WHITE_Y, WHITE_Z] <;> ring

/-! ## Claim C5 — round-trip tolerance -/

/-- C5 counterexample.  The claim demands every round-tripped channel stay
within `1e-4` absolute.  At the in-gamut grey triple `(5,5,5)` the green
channel of `labToRgb (rgbToLab (5,5,5))` is exactly `5.00027025` — off by
`2.7025e-4 > 1e-4`. -/
theorem C5_counterexample :
    (labToRgb (rgbToLab ⟨5, 5, 5⟩)).g = 5.00027025 ∧
    ¬ |(labToRgb (rgbToLab ⟨5, 5, 5⟩)).g - 5| ≤ 1e-4 := by
  have h := roundTripGrey 5 (by norm_num) (by norm_num)
  rw [h]
  dsimp only
  constructor
  · norm_num
  · rw [show (1.00005405 * (5:ℝ) - 5) = 0.00027025 by norm_num,
      abs_of_nonneg (by norm_num : (0:ℝ) ≤ 0.00027025)]
    norm_num

/-- C5 (amended): the `1e-4` absolute round-trip bound does not hold.  On
the linear-gamma grey axis `r = g = b = x` with `x ∈ [0,10]`, the composed
conversion `labToRgb ∘ rgbToLab` is exactly the linear map scaling the
channels by `(1.0000149, 1.00005405, 1.00001585)` — the residue of the
4-decimal sRGB matrices not being exact inverses — so each channel
round-trips within `6e-4` absolute (but the green channel misses `1e-4`
already at `x = 5`). -/
theorem C5_grey_roundtrip (x : ℝ) (hx0 : 0 ≤ x) (hx1 : x ≤ 10) :
    labToRgb (rgbToLab ⟨x, x, x⟩)
      = ⟨1.0000149 * x, 1.00005405 * x, 1.00001585 * x⟩ ∧
    |(labToRgb (rgbToLab ⟨x, x, x⟩)).r - x| ≤ 6e-4 ∧
    |(labToRgb (rgbToLab ⟨x, x, x⟩)).g - x| ≤ 6e-4 ∧
    |(labToRgb (rgbToLab ⟨x, x, x⟩)).b - x| ≤ 6e-4 := by
  have h := roundTripGrey x hx0 hx1
  refine ⟨h, ?_, ?_, ?_⟩ <;> rw [h] <;> dsimp only <;> rw [abs_le] <;>
    constructor <;> nlinarith

/-- C5 witness: the amended theorem applied at `x = 5`. -/
theorem C5_witness :
    labToRgb (rgbToLab ⟨5, 5, 5⟩)
      = ⟨1.0000149 * 5, 1.00005405 * 5, 1.00001585 * 5⟩ ∧
    |(labToRgb (rgbToLab ⟨5, 5, 5⟩)).r - 5| ≤ 6e-4 ∧
    |(labToRgb (rgbToLab ⟨5, 5, 5⟩)).g - 5| ≤ 6e-4 ∧
    |(labToRgb (rgbToLab ⟨5, 5, 5⟩)).b - 5| ≤ 6e-4 :=
  C5_grey_roundtrip 5 (by norm_num) (by norm_num)

end Spectre
